import Mathlib

/-!
Shallow embedding of the Adobe license monitor scripts
(`adobe_license_monitor.py` and `refresh_adobe_license_monitor.py`).

Python strings are modelled as `List Char`; user records as a structure
carrying the list of group-membership strings; the insertion-ordered
Python `dict` used for counting as an association list where updating an
existing key keeps its position and a new key is appended at the end.
-/

namespace AdobeMonitor

/-- Characters removed by Python `str.strip()` (the ASCII whitespace set). -/
def pyIsSpace (c : Char) : Bool :=
  c == ' ' || c == '\t' || c == '\n' || c == '\r' || c == '\x0b' || c == '\x0c'

/-- Remove leading whitespace, as the leading half of Python `str.strip()`. -/
def lstrip (s : List Char) : List Char :=
  s.dropWhile pyIsSpace

/-- Remove trailing whitespace, as the trailing half of Python `str.strip()`. -/
def rstrip (s : List Char) : List Char :=
  (s.reverse.dropWhile pyIsSpace).reverse

/-- Python `str.strip()`: remove leading and trailing whitespace. -/
def pyStrip (s : List Char) : List Char :=
  rstrip (lstrip s)

/-- Core scan of Python `str.replace`: replace every non-overlapping
occurrence of the pattern `o :: os`, scanning left to right and never
rescanning emitted output.  The fuel argument only bounds the recursion;
each step consumes at least one character of the input, so fuel equal to
the input length always suffices. -/
def replaceAllFuel (o : Char) (os new : List Char) : Nat → List Char → List Char
  | 0, s => s
  | _ + 1, [] => []
  | fuel + 1, c :: cs =>
    if (o :: os).isPrefixOf (c :: cs) then
      new ++ replaceAllFuel o os new fuel (cs.drop os.length)
    else
      c :: replaceAllFuel o os new fuel cs

/-- Python `s.replace(old, new)`.  Every call in the source passes a
non-empty `old` and `new = ""`; for `old = ""` and `new = ""` Python also
returns `s` unchanged. -/
def pyReplace (s old new : List Char) : List Char :=
  match old with
  | [] => s
  | o :: os => replaceAllFuel o os new s.length s

/-- The chain of `.replace(..., "")` calls that cleans a raw group name
(identical in both scripts). -/
def preClean (g : List Char) : List Char :=
  pyReplace
    (pyReplace
      (pyReplace
        (pyReplace
          (pyReplace
            (pyReplace
              (pyReplace
                (pyReplace g ("Default ".toList) [])
                ("configuration".toList) [])
              (" plan with 1TB".toList) [])
            (" - 100 GB".toList) [])
          (" - 1024 GB".toList) [])
        ("Single App".toList) [])
      (" DC".toList) [])
    (" 3D Collection Configuration".toList) []

/-- Full group-name normalization: the replace chain followed by `.strip()`. -/
def cleanGroup (g : List Char) : List Char :=
  pyStrip (preClean g)

/-- A user record: only the `groups` list matters to the scripts
(`user.get('groups', [])`; a user without the key behaves as `groups = []`). -/
structure User where
  groups : List (List Char)
deriving DecidableEq

/-- The `EXCLUDED_GROUPS` list of `refresh_adobe_license_monitor.py`. -/
def EXCLUDED_GROUPS : List (List Char) :=
  [("Default Acrobat Pro DC configuration_B90DF18-provisioning".toList),
   ("Default All Apps plan - 100 GB configuration_C9431CF-provisioning".toList),
   ("Default Photoshop - 100 GB configuration_0A61F1F-provisioning".toList),
   ("Default Audition - 1024 GB configuration_4A18C28-provisioning".toList),
   ("_product_admin_Custom fonts (VIP,VIPMP - A1406BFDEA1D8CDBEDEA)".toList),
   ("_admin_Default Custom fonts configuration".toList),
   ("Default Premiere Pro - 1024 GB configuration_E71BE78-provisioning".toList),
   ("Default Illustrator - 100 GB configuration_A69B937-provisioning".toList),
   ("Default Lightroom Single App plan with 1TB configuration_6FBBDC1-provisioning".toList),
   ("Acrobat Users".toList),
   ("Default Custom fonts configuration".toList)]

/-- The static allocation table (`LICENSE_MAPPING` / `license_mapping`,
identical in both scripts). -/
def LICENSE_MAPPING : List (List Char × Nat) :=
  [(("Acrobat Pro".toList), 316),
   (("All Apps plan".toList), 268),
   (("Photoshop".toList), 14),
   (("Audition".toList), 2),
   (("Premiere Pro".toList), 22),
   (("Illustrator".toList), 7),
   (("Lightroom".toList), 1),
   (("Substance".toList), 4)]

/-- Association-list lookup, modelling Python `dict.get(k)` returning
`None` when the key is absent. -/
def assocLookup (m : List (List Char × Nat)) (k : List Char) : Option Nat :=
  match m with
  | [] => none
  | (k', v) :: rest => if k' = k then some v else assocLookup rest k

/-- Python `dict.get(k, 0)`. -/
def getCount (m : List (List Char × Nat)) (k : List Char) : Nat :=
  (assocLookup m k).getD 0

/-- The update `license_counts[k] = license_counts.get(k, 0) + 1` on an
insertion-ordered dict: an existing key keeps its position, a fresh key
is appended at the end with count 1. -/
def bump (k : List Char) : List (List Char × Nat) → List (List Char × Nat)
  | [] => [(k, 1)]
  | (k', v) :: rest => if k' = k then (k', v + 1) :: rest else (k', v) :: bump k rest

/-- Body of the inner loop of `summarize_licenses`: skip excluded groups,
otherwise clean the name and increment its count.
`adobe_license_monitor.py` has no exclusion check, which is the
`excl = []` instance (the guard is then vacuous). -/
def addGroup (excl : List (List Char)) (counts : List (List Char × Nat))
    (g : List Char) : List (List Char × Nat) :=
  if g ∈ excl then counts else bump (cleanGroup g) counts

/-- The inner loop over one user's groups. -/
def addUser (excl : List (List Char)) (counts : List (List Char × Nat))
    (u : User) : List (List Char × Nat) :=
  u.groups.foldl (addGroup excl) counts

/-- The counting phase of `summarize_licenses`, parametrized by the
exclusion list. -/
def licenseCountsWith (excl : List (List Char)) (users : List User) :
    List (List Char × Nat) :=
  users.foldl (addUser excl) []

/-- Counting phase of `refresh_adobe_license_monitor.summarize_licenses`. -/
def licenseCounts (users : List User) : List (List Char × Nat) :=
  licenseCountsWith EXCLUDED_GROUPS users

/-- Counting phase of `adobe_license_monitor.summarize_licenses`
(no exclusion list). -/
def licenseCountsNoExcl (users : List User) : List (List Char × Nat) :=
  licenseCountsWith [] users

/-- Decimal rendering of a count, as the f-string renders an int. -/
def natRepr (n : Nat) : List Char :=
  (Nat.repr n).toList

/-- The assignment `unit = "License" if license_name != "Adobe Stock Credits" else "Credits"`. -/
def baseUnit (licenseName : List Char) : List Char :=
  if licenseName ≠ ("Adobe Stock Credits".toList) then ("License".toList)
  else ("Credits".toList)

/-- The unit label after `unit += "s" if used > 1 else ""`. -/
def unitFor (licenseName : List Char) (used : Nat) : List Char :=
  baseUnit licenseName ++ (if used > 1 then ("s".toList) else [])

/-- The lookup `LICENSE_MAPPING.get(license_name, "Unknown")` as rendered into the line. -/
def totalRepr (licenseName : List Char) : List Char :=
  match assocLookup LICENSE_MAPPING licenseName with
  | some t => natRepr t
  | none => "Unknown".toList

/-- One summary line: `f"{license_name}: {used} of {total} {unit}"`. -/
def summaryLine (licenseName : List Char) (used : Nat) : List Char :=
  licenseName ++ (": ".toList) ++ natRepr used ++ (" of ".toList) ++
    totalRepr licenseName ++ (" ".toList) ++ unitFor licenseName used

/-- Python `"\n".join`. -/
def joinLines : List (List Char) → List Char
  | [] => []
  | [l] => l
  | l :: ls => l ++ ("\n".toList) ++ joinLines ls

/-- Function `summarize_licenses` of `refresh_adobe_license_monitor.py`: count,
then format one line per counted product in dict insertion order. -/
def summarizeLicenses (users : List User) : List Char :=
  joinLines ((licenseCounts users).map (fun e => summaryLine e.1 e.2))

/-- Function `summarize_licenses` of `adobe_license_monitor.py` (no exclusions). -/
def summarizeLicensesNoExcl (users : List User) : List Char :=
  joinLines ((licenseCountsNoExcl users).map (fun e => summaryLine e.1 e.2))

/-- Sum of all per-product counts held by the counting dict. -/
def sumCounts (m : List (List Char × Nat)) : Nat :=
  (m.map Prod.snd).sum

/-- The Bool predicate describing which group strings the aggregator
counts towards product `p`: not excluded, and normalizing to `p`. -/
def countsGroup (excl : List (List Char)) (p g : List Char) : Bool :=
  !(decide (g ∈ excl)) && decide (cleanGroup g = p)

/-- Whether `pat` occurs as a contiguous substring of the second list. -/
def hasSub (pat : List Char) : List Char → Bool
  | [] => pat.isEmpty
  | c :: cs => pat.isPrefixOf (c :: cs) || hasSub pat cs

/-- One page of the users endpoint: its `users` array and `lastPage` flag. -/
structure Page (α : Type) where
  users : List α
  lastPage : Bool
deriving DecidableEq

/-- Outcome of fetching one page: a 200 response with a parsed body, or
any failure (non-200 after retries, or an exception). -/
inductive PageResult (α : Type) where
  | ok (page : Page α)
  | fail
deriving DecidableEq

/-- The `while` loop of `get_users_in_org` (same shape in both scripts):
extend the accumulated list with the page's users, stop after a page with
`lastPage` true, stop with the list accumulated so far on a failed fetch,
otherwise move to the next page index.  `fuel` only bounds the recursion;
the loop itself runs until `lastPage` or a failure. -/
def getUsersLoop {α : Type} (pages : Nat → PageResult α) :
    List α → Nat → Nat → List α
  | acc, _, 0 => acc
  | acc, idx, fuel + 1 =>
    match pages idx with
    | .fail => acc
    | .ok p =>
      if p.lastPage then acc ++ p.users
      else getUsersLoop pages (acc ++ p.users) (idx + 1) fuel

/-- Function `get_users_in_org`, starting from page index 0 with an empty list. -/
def getUsersInOrg {α : Type} (pages : Nat → PageResult α) (fuel : Nat) : List α :=
  getUsersLoop pages [] 0 fuel

/-- Value of an ASCII decimal digit, `none` for any other character. -/
def digitVal (c : Char) : Option Nat :=
  if '0' ≤ c ∧ c ≤ '9' then some (c.toNat - ('0').toNat) else none

/-- Digits after the first one in Python `int()`: a single underscore may
separate two digits; a trailing, doubled or misplaced underscore fails. -/
def digitsRest (acc : Nat) : List Char → Option Nat
  | [] => some acc
  | c :: cs =>
    if c = '_' then
      match cs with
      | [] => none
      | c' :: cs' =>
        match digitVal c' with
        | some d => digitsRest (acc * 10 + d) cs'
        | none => none
    else
      match digitVal c with
      | some d => digitsRest (acc * 10 + d) cs
      | none => none

/-- A nonempty digit run as accepted by Python `int()`. -/
def pyIntDigits : List Char → Option Nat
  | [] => none
  | c :: cs =>
    match digitVal c with
    | some d => digitsRest d cs
    | none => none

/-- Python `int(s)` on a string: surrounding whitespace is stripped, an
optional sign precedes a nonempty digit run with optional single
underscores between digits; `none` models the `ValueError` raised on
anything else (such as an HTTP-date `Retry-After` value).  As with
`pyIsSpace`, only the ASCII forms of whitespace and digits are
modelled. -/
def pyInt (s : List Char) : Option Int :=
  match pyStrip s with
  | [] => none
  | c :: cs =>
    if c = '+' then (pyIntDigits cs).map (fun n => (n : Int))
    else if c = '-' then (pyIntDigits cs).map (fun n => -(n : Int))
    else (pyIntDigits (c :: cs)).map (fun n => (n : Int))

/-- An HTTP response as `make_call` inspects it: the status code, the
parsed JSON body (used on status 200), and the raw `Retry-After` header
value when the response carries one — `none` when the header is absent,
in which case `headers.get` falls back to the computed backoff value,
which is already an int. -/
structure HttpResponse (α : Type) where
  status : Nat
  body : α
  retryAfter : Option (List Char)
deriving DecidableEq

/-- Outcome of one attempted request: an exception, or a response. -/
inductive CallResult (α : Type) where
  | exc
  | response (r : HttpResponse α)
deriving DecidableEq

/-- The test `response.status_code in [429, 502, 503, 504]`. -/
def retryableStatus (code : Nat) : Bool :=
  code == 429 || code == 502 || code == 503 || code == 504

/-- The `for attempt in range(1, 5)` loop of `make_call`, over the list
of attempt numbers still to run.  Returns the result (`none` models
returning `None`) paired with the number of HTTP requests issued.  An
exception during the attempt (including one raised by `response.json()`)
returns `None` at once; a 200 returns the body; a non-retryable non-200
returns `None`; a retryable status (429/502/503/504) first computes
`retry_wait`, still inside the `try`: with a `Retry-After` header whose
value `int()` rejects, the `ValueError` is caught and `None` is returned
after this attempt, otherwise the loop moves on to the next attempt,
and an exhausted attempt list returns `None`.  The backoff sleep runs
outside the `try` and affects only how long the process waits, so its
duration is not modelled; `sleep` itself raising on an out-of-range
wait value would terminate the process abnormally instead of returning
and is outside this returned-value model. -/
def makeCallLoop {α : Type} (resps : Nat → CallResult α) : List Nat → Option α × Nat
  | [] => (none, 0)
  | attempt :: rest =>
    match resps attempt with
    | .exc => (none, 1)
    | .response r =>
      if r.status = 200 then (some r.body, 1)
      else if retryableStatus r.status then
        match r.retryAfter with
        | some h =>
          if (pyInt h).isSome then
            ((makeCallLoop resps rest).1, (makeCallLoop resps rest).2 + 1)
          else (none, 1)
        | none => ((makeCallLoop resps rest).1, (makeCallLoop resps rest).2 + 1)
      else (none, 1)

/-- Function `make_call`: at most the four attempts `range(1, 5)`. -/
def makeCall {α : Type} (resps : Nat → CallResult α) : Option α × Nat :=
  makeCallLoop resps [1, 2, 3, 4]

/-- Example user holding one membership of the Photoshop group. -/
def uPhotoshop : User := ⟨[("Photoshop".toList)]⟩

/-- Example user holding one membership of the Audition group. -/
def uAudition : User := ⟨[("Audition".toList)]⟩

/-- Example page sequence: page 0 is not last, page 1 is last. -/
def exPages : Nat → PageResult Nat := fun i =>
  if i = 0 then .ok ⟨[10], false⟩ else .ok ⟨[20, 30], true⟩

/-- The users arrays of `exPages`. -/
def exPageUsers : Nat → List Nat := fun i => if i = 0 then [10] else [20, 30]

/-- Example page sequence: page 0 succeeds (not last), page 1 fails. -/
def exPagesFail : Nat → PageResult Nat := fun i =>
  if i = 0 then .ok ⟨[7], false⟩ else .fail

/-- Responses that always report status 429 with a `Retry-After` value
that parses as a nonnegative int. -/
def exRetryResps : Nat → CallResult Nat := fun _ =>
  .response ⟨429, 0, some ("30".toList)⟩

/-- Responses agreeing with `exRetryResps` on attempts up to 4 and
differing afterwards. -/
def exRetryRespsAfter : Nat → CallResult Nat := fun a =>
  if a ≤ 4 then .response ⟨429, 0, some ("30".toList)⟩ else .exc

/-- Responses that always report status 429 but carry a `Retry-After`
value in HTTP-date form, which `int()` rejects. -/
def exRetryBadHeader : Nat → CallResult Nat := fun _ =>
  .response ⟨429, 0, some ("Wed, 21 Oct 2015 07:28:00 GMT".toList)⟩

theorem getCount_nil (p : List Char) : getCount [] p = 0 := rfl

theorem getCount_cons (a : List Char) (b : Nat) (m : List (List Char × Nat))
    (p : List Char) :
    getCount ((a, b) :: m) p = if a = p then b else getCount m p := by
  by_cases h : a = p <;> simp [getCount, assocLookup, h]

theorem getCount_bump (k : List Char) (c : List (List Char × Nat)) (p : List Char) :
    getCount (bump k c) p = getCount c p + (if p = k then 1 else 0) := by
  induction c with
  | nil =>
    by_cases h : k = p
    · simp [bump, getCount_cons, getCount_nil, h]
    · have h' : ¬ p = k := fun hh => h hh.symm
      simp [bump, getCount_cons, getCount_nil, h, h']
  | cons hd tl ih =>
    obtain ⟨k', v⟩ := hd
    by_cases h1 : k' = k
    · subst h1
      by_cases h2 : k' = p
      · subst h2; simp [bump, getCount_cons]
      · have h2' : ¬ p = k' := fun hh => h2 hh.symm
        simp [bump, getCount_cons, h2, h2']
    · by_cases h2 : k' = p
      · subst h2
        simp [bump, getCount_cons, h1]
      · simp [bump, getCount_cons, h1, h2, ih]

theorem getCount_foldl_addGroup (excl : List (List Char)) (p : List Char) :
    ∀ (gs : List (List Char)) (c : List (List Char × Nat)),
      getCount (gs.foldl (addGroup excl) c) p
        = getCount c p + gs.countP (countsGroup excl p) := by
  intro gs
  induction gs with
  | nil => intro c; simp
  | cons g gs ih =>
    intro c
    rw [List.foldl_cons, ih, List.countP_cons]
    by_cases hg : g ∈ excl
    · simp [addGroup, hg, countsGroup]
    · by_cases hc : cleanGroup g = p
      · simp [addGroup, hg, countsGroup, hc, getCount_bump]
        omega
      · have hc' : ¬ p = cleanGroup g := fun hh => hc hh.symm
        simp [addGroup, hg, countsGroup, hc, hc', getCount_bump]

theorem getCount_foldl_addUser (excl : List (List Char)) (p : List Char) :
    ∀ (us : List User) (c : List (List Char × Nat)),
      getCount (us.foldl (addUser excl) c) p
        = getCount c p + ((us.map User.groups).flatten).countP (countsGroup excl p) := by
  intro us
  induction us with
  | nil => intro c; simp
  | cons u us ih =>
    intro c
    rw [List.foldl_cons, ih]
    show getCount (u.groups.foldl (addGroup excl) c) p + _ = _
    rw [getCount_foldl_addGroup]
    simp
    omega

theorem getCount_licenseCountsWith (excl : List (List Char)) (users : List User)
    (p : List Char) :
    getCount (licenseCountsWith excl users) p
      = ((users.map User.groups).flatten).countP (countsGroup excl p) := by
  rw [licenseCountsWith, getCount_foldl_addUser]
  simp [getCount_nil]

/-- Claim C1: for every list of users and every product name `p`, the
count the aggregator of `refresh_adobe_license_monitor.py` stores for `p`
equals the number of group-membership strings across all users that are
not in the static exclusion list and whose cleaned form is `p`. -/
theorem licenseCounts_eq_expected (users : List User) (p : List Char) :
    getCount (licenseCounts users) p
      = ((users.map User.groups).flatten).countP
          (fun g => !(decide (g ∈ EXCLUDED_GROUPS)) && decide (cleanGroup g = p)) :=
  getCount_licenseCountsWith EXCLUDED_GROUPS users p

theorem sumCounts_bump (k : List Char) (c : List (List Char × Nat)) :
    sumCounts (bump k c) = sumCounts c + 1 := by
  induction c with
  | nil => simp [bump, sumCounts]
  | cons hd tl ih =>
    obtain ⟨k', v⟩ := hd
    by_cases h : k' = k <;> simp_all [bump, sumCounts] <;> omega

theorem sumCounts_foldl_addGroup (excl : List (List Char)) :
    ∀ (gs : List (List Char)) (c : List (List Char × Nat)),
      sumCounts (gs.foldl (addGroup excl) c)
        = sumCounts c + gs.countP (fun g => !(decide (g ∈ excl))) := by
  intro gs
  induction gs with
  | nil => intro c; simp
  | cons g gs ih =>
    intro c
    rw [List.foldl_cons, ih, List.countP_cons]
    by_cases hg : g ∈ excl
    · simp [addGroup, hg]
    · simp [addGroup, hg, sumCounts_bump]
      omega

theorem sumCounts_foldl_addUser (excl : List (List Char)) :
    ∀ (us : List User) (c : List (List Char × Nat)),
      sumCounts (us.foldl (addUser excl) c)
        = sumCounts c
            + ((us.map User.groups).flatten).countP (fun g => !(decide (g ∈ excl))) := by
  intro us
  induction us with
  | nil => intro c; simp
  | cons u us ih =>
    intro c
    rw [List.foldl_cons, ih]
    show sumCounts (u.groups.foldl (addGroup excl) c) + _ = _
    rw [sumCounts_foldl_addGroup]
    simp
    omega

/-- Claim C8: the per-product counts sum to the number of non-excluded
group-membership strings; without an exclusion list they sum to the total
number of group-membership strings. -/
theorem sumCounts_conservation (users : List User) :
    sumCounts (licenseCounts users)
        = ((users.map User.groups).flatten).countP
            (fun g => !(decide (g ∈ EXCLUDED_GROUPS)))
      ∧ sumCounts (licenseCountsNoExcl users)
        = ((users.map User.groups).flatten).length := by
  constructor
  · rw [licenseCounts, licenseCountsWith, sumCounts_foldl_addUser]
    simp [sumCounts]
  · rw [licenseCountsNoExcl, licenseCountsWith, sumCounts_foldl_addUser]
    rw [List.countP_eq_length.2 (fun a _ => by simp)]
    simp [sumCounts]

theorem bump_pos (k : List Char) (c : List (List Char × Nat))
    (hc : ∀ e ∈ c, 1 ≤ e.2) : ∀ e ∈ bump k c, 1 ≤ e.2 := by
  induction c with
  | nil => simp [bump]
  | cons hd tl ih =>
    obtain ⟨k', v⟩ := hd
    by_cases h : k' = k
    · simp only [bump, if_pos h]
      intro e he
      rcases List.mem_cons.1 he with rfl | he'
      · have hv := hc (k', v) (by simp)
        exact Nat.le_succ_of_le hv
      · exact hc e (List.mem_cons_of_mem _ he')
    · simp only [bump, if_neg h]
      intro e he
      rcases List.mem_cons.1 he with rfl | he'
      · exact hc (k', v) (by simp)
      · exact ih (fun e' he'' => hc e' (List.mem_cons_of_mem _ he'')) e he'

theorem foldl_addGroup_pos (excl : List (List Char)) :
    ∀ (gs : List (List Char)) (c : List (List Char × Nat)),
      (∀ e ∈ c, 1 ≤ e.2) → ∀ e ∈ gs.foldl (addGroup excl) c, 1 ≤ e.2 := by
  intro gs
  induction gs with
  | nil => intro c hc; simpa using hc
  | cons g gs ih =>
    intro c hc
    rw [List.foldl_cons]
    apply ih
    by_cases hg : g ∈ excl
    · simpa [addGroup, hg] using hc
    · simpa [addGroup, hg] using bump_pos (cleanGroup g) c hc

theorem foldl_addUser_pos (excl : List (List Char)) :
    ∀ (us : List User) (c : List (List Char × Nat)),
      (∀ e ∈ c, 1 ≤ e.2) → ∀ e ∈ us.foldl (addUser excl) c, 1 ≤ e.2 := by
  intro us
  induction us with
  | nil => intro c hc; simpa using hc
  | cons u us ih =>
    intro c hc
    rw [List.foldl_cons]
    exact ih _ (foldl_addGroup_pos excl u.groups c hc)

/-- Claim C9: every count appearing in the aggregator's dict is at least
one, so no summary line is ever produced for a zero count. -/
theorem licenseCounts_pos (users : List User) (e : List Char × Nat)
    (he : e ∈ licenseCounts users) : 1 ≤ e.2 :=
  foldl_addUser_pos EXCLUDED_GROUPS users [] (by simp) e he

/-- Claim C7 counterexample: two users whose lists are permutations of
one another, yet `summarize_licenses` returns different strings, because
the lines follow the dict's insertion order (first occurrence order). -/
theorem summarizeLicenses_not_perm_invariant :
    ([uPhotoshop, uAudition].Perm [uAudition, uPhotoshop])
      ∧ summarizeLicenses [uAudition, uPhotoshop]
          ≠ summarizeLicenses [uPhotoshop, uAudition] :=
  ⟨List.Perm.swap uAudition uPhotoshop [], by decide⟩

/-- Claim C7 amended: permuting the user list leaves every per-product
count unchanged (the summary string itself can differ, since its lines
follow first-occurrence order). -/
theorem licenseCounts_perm_invariant (users users' : List User)
    (hperm : users.Perm users') (p : List Char) :
    getCount (licenseCounts users') p = getCount (licenseCounts users) p := by
  rw [licenseCounts, licenseCounts, getCount_licenseCountsWith,
    getCount_licenseCountsWith]
  exact (List.Perm.countP_eq _ ((hperm.map User.groups).flatten)).symm

theorem licenseCounts_perm_invariant_witness :
    getCount (licenseCounts [uAudition, uPhotoshop]) ("Photoshop".toList)
        = getCount (licenseCounts [uPhotoshop, uAudition]) ("Photoshop".toList)
      ∧ getCount (licenseCounts [uPhotoshop, uAudition]) ("Photoshop".toList) = 1 :=
  ⟨licenseCounts_perm_invariant [uPhotoshop, uAudition] [uAudition, uPhotoshop]
      (List.Perm.swap uAudition uPhotoshop []) ("Photoshop".toList),
    by decide⟩

theorem licenseCounts_pos_witness :
    ((("P".toList), 1)) ∈ licenseCounts [⟨[("P".toList)]⟩]
      ∧ 1 ≤ (((("P".toList), 1)) : List Char × Nat).2 :=
  ⟨by decide, licenseCounts_pos [⟨[("P".toList)]⟩] ((("P".toList), 1)) (by decide)⟩

theorem getUsersLoop_advance {α : Type} (pages : Nat → PageResult α)
    (u : Nat → List α) :
    ∀ (k idx : Nat) (acc : List α) (m : Nat),
      (∀ j, j < k → pages (idx + j) = .ok ⟨u (idx + j), false⟩) →
      getUsersLoop pages acc idx (k + m)
        = getUsersLoop pages
            (acc ++ ((List.range k).map (fun j => u (idx + j))).flatten) (idx + k) m := by
  intro k
  induction k with
  | zero => intro idx acc m _; simp
  | succ k ih =>
    intro idx acc m h
    rw [Nat.add_assoc k 1 m,
      ih idx acc (1 + m) (fun j hj => h j (Nat.lt_succ_of_lt hj))]
    have hk : pages (idx + k) = .ok ⟨u (idx + k), false⟩ := h k (Nat.lt_succ_self k)
    rw [Nat.add_comm 1 m]
    simp only [getUsersLoop, hk]
    simp [List.range_succ, List.append_assoc, Nat.add_assoc]

/-- Claim C2: when pages `0..k-1` succeed with `lastPage` false and page
`k` succeeds with `lastPage` true, the fetcher stops at page `k` (any
fuel beyond `k` gives the same result) and returns the concatenation of
the pages' `users` arrays in page order starting at index 0. -/
theorem getUsersInOrg_concat_pages {α : Type} (pages : Nat → PageResult α)
    (u : Nat → List α) (k fuel : Nat)
    (hprev : ∀ j, j < k → pages j = .ok ⟨u j, false⟩)
    (hlast : pages k = .ok ⟨u k, true⟩)
    (hfuel : k < fuel) :
    getUsersInOrg pages fuel = ((List.range (k + 1)).map u).flatten := by
  obtain ⟨m, rfl⟩ : ∃ m, fuel = k + (m + 1) := ⟨fuel - k - 1, by omega⟩
  rw [getUsersInOrg,
    getUsersLoop_advance pages u k 0 [] (m + 1)
      (fun j hj => by rw [Nat.zero_add]; exact hprev j hj)]
  rw [Nat.zero_add]
  simp only [getUsersLoop, hlast]
  simp [List.range_succ]

theorem getUsersInOrg_concat_pages_witness :
    getUsersInOrg exPages 2 = [10, 20, 30] := by
  have h := getUsersInOrg_concat_pages exPages exPageUsers 1 2
    (fun j hj => by
      have hj0 : j = 0 := by omega
      subst hj0; rfl)
    rfl (by omega)
  rw [h]; decide

/-- Claim C5 counterexample: page 0 succeeds with one user and page 1
fails, yet the fetch returns that user rather than no data. -/
theorem getUsersInOrg_fail_keeps_partial :
    exPagesFail 1 = .fail ∧ getUsersInOrg exPagesFail 2 = [7]
      ∧ getUsersInOrg exPagesFail 2 ≠ [] := by
  refine ⟨rfl, rfl, ?_⟩
  decide

/-- Claim C5 amended: when a page request fails (non-200 after retries
or an exception), the fetch stops requesting further pages and returns
exactly the users accumulated from the pages before the failure — an
empty list only when the failure hits the first page. -/
theorem getUsersInOrg_fail_partial {α : Type} (pages : Nat → PageResult α)
    (u : Nat → List α) (k fuel : Nat)
    (hprev : ∀ j, j < k → pages j = .ok ⟨u j, false⟩)
    (hfail : pages k = .fail)
    (hfuel : k < fuel) :
    getUsersInOrg pages fuel = ((List.range k).map u).flatten := by
  obtain ⟨m, rfl⟩ : ∃ m, fuel = k + (m + 1) := ⟨fuel - k - 1, by omega⟩
  rw [getUsersInOrg,
    getUsersLoop_advance pages u k 0 [] (m + 1)
      (fun j hj => by rw [Nat.zero_add]; exact hprev j hj)]
  rw [Nat.zero_add]
  simp only [getUsersLoop, hfail]
  simp

theorem getUsersInOrg_fail_partial_witness :
    getUsersInOrg exPagesFail 2 = [7] := by
  have h := getUsersInOrg_fail_partial exPagesFail (fun _ => [7]) 1 2
    (fun j hj => by
      have hj0 : j = 0 := by omega
      subst hj0; rfl)
    rfl (by omega)
  rw [h]; decide

theorem makeCallLoop_congr {α : Type} (resps resps' : Nat → CallResult α) :
    ∀ l : List Nat, (∀ a ∈ l, resps' a = resps a) →
      makeCallLoop resps l = makeCallLoop resps' l := by
  intro l
  induction l with
  | nil => intro _; rfl
  | cons a rest ih =>
    intro h
    have ha : resps' a = resps a := h a (List.mem_cons_self a rest)
    have hr : makeCallLoop resps rest = makeCallLoop resps' rest :=
      ih (fun b hb => h b (List.mem_cons_of_mem a hb))
    simp only [makeCallLoop, ha, hr]

theorem retryableStatus_ne_200 (code : Nat) (h : retryableStatus code = true) :
    ¬ code = 200 := by
  intro hc
  subst hc
  exact absurd h (by decide)

theorem makeCallLoop_retry_step {α : Type} (resps : Nat → CallResult α)
    (a : Nat) (rest : List Nat) (r : HttpResponse α)
    (hr : resps a = .response r)
    (hs : retryableStatus r.status = true)
    (hh : ∀ h, r.retryAfter = some h → (pyInt h).isSome = true) :
    makeCallLoop resps (a :: rest)
      = ((makeCallLoop resps rest).1, (makeCallLoop resps rest).2 + 1) := by
  have h200 : ¬ r.status = 200 := retryableStatus_ne_200 _ hs
  simp only [makeCallLoop, hr]
  rw [if_neg h200, if_pos hs]
  cases hra : r.retryAfter with
  | none => rfl
  | some h => simp [hh h hra]

/-- Claim C4 counterexample: every response reports retryable status 429,
yet `make_call` gives up after a single request, because the response's
`Retry-After` value is an HTTP-date that `int()` rejects and that parse
runs inside the `try` block: the script catches the `ValueError` and
returns `None` after one attempt, not four. -/
theorem makeCall_retryable_one_attempt :
    retryableStatus 429 = true
      ∧ exRetryBadHeader 1
          = .response ⟨429, 0, some ("Wed, 21 Oct 2015 07:28:00 GMT".toList)⟩
      ∧ pyInt ("Wed, 21 Oct 2015 07:28:00 GMT".toList) = none
      ∧ makeCall exRetryBadHeader = ((none : Option Nat), 1)
      ∧ ¬ makeCall exRetryBadHeader = ((none : Option Nat), 4) :=
  ⟨by decide, rfl, by decide, by decide, by decide⟩

/-- Claim C4 amended: when every response on attempts 1 to 4 carries a
retryable status code (429, 502, 503 or 504) and any `Retry-After`
header among them parses as a nonnegative integer, `make_call` issues
exactly 4 requests and then gives up returning no data, and never issues
a fifth request: the result is unchanged by altering the responses
beyond attempt 4.  Without the header proviso this fails: a retryable
response whose `Retry-After` value `int()` rejects makes `make_call`
return `None` after that attempt. -/
theorem makeCall_all_retryable {α : Type} (resps resps' : Nat → CallResult α)
    (hret : ∀ a, 1 ≤ a → a ≤ 4 →
      ∃ r, resps a = .response r ∧ retryableStatus r.status = true
        ∧ ∀ h, r.retryAfter = some h → ∃ w, pyInt h = some w ∧ 0 ≤ w)
    (hagree : ∀ a, 1 ≤ a → a ≤ 4 → resps' a = resps a) :
    makeCall resps = (none, 4) ∧ makeCall resps' = (none, 4) := by
  have key : makeCall resps = (none, 4) := by
    obtain ⟨r1, e1, t1, p1⟩ := hret 1 (by omega) (by omega)
    obtain ⟨r2, e2, t2, p2⟩ := hret 2 (by omega) (by omega)
    obtain ⟨r3, e3, t3, p3⟩ := hret 3 (by omega) (by omega)
    obtain ⟨r4, e4, t4, p4⟩ := hret 4 (by omega) (by omega)
    have q : ∀ (r : HttpResponse α),
        (∀ h, r.retryAfter = some h → ∃ w, pyInt h = some w ∧ 0 ≤ w) →
        ∀ h, r.retryAfter = some h → (pyInt h).isSome = true := by
      intro r pr h hh
      obtain ⟨w, hw, _⟩ := pr h hh
      rw [hw]
      rfl
    rw [makeCall,
      makeCallLoop_retry_step resps 1 _ r1 e1 t1 (q r1 p1),
      makeCallLoop_retry_step resps 2 _ r2 e2 t2 (q r2 p2),
      makeCallLoop_retry_step resps 3 _ r3 e3 t3 (q r3 p3),
      makeCallLoop_retry_step resps 4 _ r4 e4 t4 (q r4 p4)]
    rfl
  refine ⟨key, ?_⟩
  rw [makeCall, ← makeCallLoop_congr resps resps' [1, 2, 3, 4] ?ha]
  · exact key
  · intro a ha
    have hb : a = 1 ∨ a = 2 ∨ a = 3 ∨ a = 4 := by simpa using ha
    rcases hb with rfl | rfl | rfl | rfl <;>
      exact hagree _ (by omega) (by omega)

theorem makeCall_all_retryable_witness :
    makeCall exRetryResps = (none, 4) ∧ makeCall exRetryRespsAfter = (none, 4) :=
  makeCall_all_retryable exRetryResps exRetryRespsAfter
    (fun a _ _ => ⟨⟨429, 0, some ("30".toList)⟩, rfl, by decide,
      fun h hh => by
        have hh' : h = ("30".toList) := by simpa using hh.symm
        subst hh'
        exact ⟨30, by decide, by decide⟩⟩)
    (fun a _ h4 => by simp [exRetryRespsAfter, exRetryResps, h4])

/-- Claim C6: a summary line renders the singular unit label exactly when
the count is 1 and appends the plural "s" exactly when the count exceeds
1, and renders the product's total from the allocation table, printing
"Unknown" when the product is absent from it. -/
theorem summaryLine_unit_and_total (name : List Char) (used : Nat) :
    (used = 1 → summaryLine name used
        = name ++ (": ".toList) ++ natRepr used ++ (" of ".toList)
            ++ totalRepr name ++ (" ".toList) ++ baseUnit name)
    ∧ (1 < used → summaryLine name used
        = name ++ (": ".toList) ++ natRepr used ++ (" of ".toList)
            ++ totalRepr name ++ (" ".toList) ++ baseUnit name ++ ("s".toList))
    ∧ (assocLookup LICENSE_MAPPING name = none → totalRepr name = ("Unknown".toList))
    ∧ (∀ t, assocLookup LICENSE_MAPPING name = some t → totalRepr name = natRepr t) := by
  refine ⟨?_, ?_, ?_, ?_⟩
  · intro h
    subst h
    simp [summaryLine, unitFor]
  · intro h
    simp [summaryLine, unitFor, h, List.append_assoc]
  · intro h
    simp [totalRepr, h]
  · intro t h
    simp [totalRepr, h]

theorem summaryLine_unit_and_total_witness :
    summaryLine ("Photoshop".toList) 1
        = ("Photoshop".toList) ++ (": ".toList) ++ natRepr 1 ++ (" of ".toList)
            ++ totalRepr ("Photoshop".toList) ++ (" ".toList)
            ++ baseUnit ("Photoshop".toList)
      ∧ summaryLine ("Photoshop".toList) 2
        = ("Photoshop".toList) ++ (": ".toList) ++ natRepr 2 ++ (" of ".toList)
            ++ totalRepr ("Photoshop".toList) ++ (" ".toList)
            ++ baseUnit ("Photoshop".toList) ++ ("s".toList) :=
  ⟨(summaryLine_unit_and_total ("Photoshop".toList) 1).1 rfl,
    (summaryLine_unit_and_total ("Photoshop".toList) 2).2.1 (by omega)⟩

/-- Claim C10: for "Adobe Stock Credits" the base unit label is already
plural, so a count of 1 renders "Credits" and a count above 1 renders
"Creditss", and the summary line ends with that label. -/
theorem stockCredits_unit (n : Nat) :
    (n = 1 → unitFor ("Adobe Stock Credits".toList) n = ("Credits".toList)
      ∧ ("Credits".toList) <:+ summaryLine ("Adobe Stock Credits".toList) n)
    ∧ (1 < n → unitFor ("Adobe Stock Credits".toList) n = ("Creditss".toList)
      ∧ ("Creditss".toList) <:+ summaryLine ("Adobe Stock Credits".toList) n) := by
  constructor
  · intro h
    subst h
    have hu : unitFor ("Adobe Stock Credits".toList) 1 = ("Credits".toList) := by
      decide
    refine ⟨hu, ?_⟩
    rw [summaryLine, hu]
    exact List.suffix_append _ _
  · intro h
    have hu : unitFor ("Adobe Stock Credits".toList) n = ("Creditss".toList) := by
      rw [unitFor, if_pos h, baseUnit, if_neg (not_not_intro rfl)]
      decide
    refine ⟨hu, ?_⟩
    rw [summaryLine, hu]
    exact List.suffix_append _ _

theorem stockCredits_unit_witness :
    unitFor ("Adobe Stock Credits".toList) 1 = ("Credits".toList)
      ∧ unitFor ("Adobe Stock Credits".toList) 2 = ("Creditss".toList) :=
  ⟨((stockCredits_unit 1).1 rfl).1, ((stockCredits_unit 2).2 (by omega)).1⟩

theorem replaceAllFuel_eq_self (o : Char) (os new : List Char) :
    ∀ (fuel : Nat) (s : List Char), hasSub (o :: os) s = false →
      replaceAllFuel o os new fuel s = s
  | 0, _, _ => rfl
  | _ + 1, [], _ => rfl
  | fuel + 1, c :: cs, h => by
    have h' : ((o :: os).isPrefixOf (c :: cs) = false)
        ∧ hasSub (o :: os) cs = false := by
      simpa [hasSub] using h
    simp only [replaceAllFuel, h'.1, Bool.false_eq_true, if_false]
    exact congrArg (c :: ·) (replaceAllFuel_eq_self o os new fuel cs h'.2)

theorem pyReplace_eq_self (s old new : List Char) (h : hasSub old s = false) :
    pyReplace s old new = s := by
  cases old with
  | nil => rfl
  | cons o os => exact replaceAllFuel_eq_self o os new s.length s h

theorem preClean_eq_self (t : List Char)
    (h1 : hasSub ("Default ".toList) t = false)
    (h2 : hasSub ("configuration".toList) t = false)
    (h3 : hasSub (" plan with 1TB".toList) t = false)
    (h4 : hasSub (" - 100 GB".toList) t = false)
    (h5 : hasSub (" - 1024 GB".toList) t = false)
    (h6 : hasSub ("Single App".toList) t = false)
    (h7 : hasSub (" DC".toList) t = false)
    (h8 : hasSub (" 3D Collection Configuration".toList) t = false) :
    preClean t = t := by
  rw [preClean, pyReplace_eq_self _ _ _ h1, pyReplace_eq_self _ _ _ h2,
    pyReplace_eq_self _ _ _ h3, pyReplace_eq_self _ _ _ h4,
    pyReplace_eq_self _ _ _ h5, pyReplace_eq_self _ _ _ h6,
    pyReplace_eq_self _ _ _ h7, pyReplace_eq_self _ _ _ h8]

theorem dropWhile_dropWhile {α : Type} (p : α → Bool) (l : List α) :
    (l.dropWhile p).dropWhile p = l.dropWhile p := by
  induction l with
  | nil => rfl
  | cons a l ih => by_cases h : p a <;> simp [List.dropWhile_cons, h, ih]

theorem rstrip_rstrip (s : List Char) : rstrip (rstrip s) = rstrip s := by
  simp [rstrip, List.reverse_reverse, dropWhile_dropWhile]

theorem dropWhile_eq_self_cons {α : Type} (p : α → Bool) (a : α) (l : List α)
    (h : (a :: l).dropWhile p = a :: l) : p a = false := by
  cases hpa : p a with
  | false => rfl
  | true =>
    rw [List.dropWhile_cons, if_pos hpa] at h
    have h1 : (l.dropWhile p).length ≤ l.length :=
      (List.dropWhile_sublist p).length_le
    have h2 := congrArg List.length h
    simp at h2
    omega

theorem lstrip_rstrip_fix (r : List Char) (h : lstrip r = r) :
    lstrip (rstrip r) = rstrip r := by
  obtain ⟨t, ht⟩ := (List.dropWhile_suffix pyIsSpace : _ <:+ r.reverse)
  have hr : rstrip r ++ t.reverse = r := by
    have h' := congrArg List.reverse ht
    simpa [rstrip, List.reverse_append] using h'
  cases hd : rstrip r with
  | nil => rfl
  | cons a l =>
    have hpa : pyIsSpace a = false := by
      apply dropWhile_eq_self_cons pyIsSpace a (l ++ t.reverse)
      have hform : r = a :: (l ++ t.reverse) := by
        rw [← hr, hd]
        simp
      rw [← hform]
      exact h
    rw [lstrip, List.dropWhile_cons, if_neg (by simp [hpa])]

theorem pyStrip_pyStrip (v : List Char) : pyStrip (pyStrip v) = pyStrip v := by
  have h1 : lstrip (lstrip v) = lstrip v := dropWhile_dropWhile _ _
  show rstrip (lstrip (rstrip (lstrip v))) = rstrip (lstrip v)
  rw [lstrip_rstrip_fix (lstrip v) h1, rstrip_rstrip]

/-- Claim C3 counterexample: cleanup is not idempotent for every string.
Removing the first occurrence of "configuration" from this input splices
its remaining halves into a fresh occurrence, which only a second pass
removes: one pass yields "configuration", two passes yield "". -/
theorem cleanGroup_not_idem :
    cleanGroup (cleanGroup ("configuconfigurationration".toList))
      ≠ cleanGroup ("configuconfigurationration".toList) := by
  decide

/-- Claim C3 amended: cleanup is idempotent on every input whose cleaned
form contains no occurrence of any of the eight replaced substrings — in
particular on every group name of the shapes the scripts process.  It is
not idempotent for all strings, because removing an occurrence can splice
the surrounding text into a new occurrence. -/
theorem cleanGroup_idem_of_clean (s : List Char)
    (h1 : hasSub ("Default ".toList) (cleanGroup s) = false)
    (h2 : hasSub ("configuration".toList) (cleanGroup s) = false)
    (h3 : hasSub (" plan with 1TB".toList) (cleanGroup s) = false)
    (h4 : hasSub (" - 100 GB".toList) (cleanGroup s) = false)
    (h5 : hasSub (" - 1024 GB".toList) (cleanGroup s) = false)
    (h6 : hasSub ("Single App".toList) (cleanGroup s) = false)
    (h7 : hasSub (" DC".toList) (cleanGroup s) = false)
    (h8 : hasSub (" 3D Collection Configuration".toList) (cleanGroup s) = false) :
    cleanGroup (cleanGroup s) = cleanGroup s := by
  show pyStrip (preClean (cleanGroup s)) = cleanGroup s
  rw [preClean_eq_self (cleanGroup s) h1 h2 h3 h4 h5 h6 h7 h8]
  exact pyStrip_pyStrip (preClean s)

theorem cleanGroup_idem_of_clean_witness :
    cleanGroup (cleanGroup ("Default Photoshop".toList))
      = cleanGroup ("Default Photoshop".toList) :=
  cleanGroup_idem_of_clean ("Default Photoshop".toList) (by decide) (by decide)
    (by decide) (by decide) (by decide) (by decide) (by decide) (by decide)

end AdobeMonitor
